import Mathlib

/-!
Verification of the epherra ephemeral file-sharing core against its
specification.  The Go handlers (`api/upload.go`, `api/view/view.go`,
`api/cleanup/cleanup.go` and the shared data model in `api/shared/db.go`)
are embedded shallowly:

* `time.Time` values become `Int` (nanoseconds); `time.Now().After t` is
  `t < now`, and the Go zero time used by the upload handler's `IsZero`
  check is the integer `0`.
* The stored base64 string `FileData` is represented by its decoded byte
  content as a `List Nat`; the empty stored string corresponds exactly to
  the empty byte list (a valid nonempty base64 string never decodes to
  zero bytes, and the upload handler rejects invalid base64 before the
  record is built).
* The GridFS bucket becomes a partial map `Nat → Option (List Nat)`; the
  zero `ObjectID` (the value a record holds when no blob was written) is
  the integer `0`.
* Mongo's `FindOne`/`UpdateOne` on the token filter are first-match
  lookup and first-match update on a list of records; `DeleteMany` and
  `UpdateMany` are filter and map.
-/

/-- FileMetadata, mirroring the `shared.FileMetadata` struct field by
field (`api/shared/db.go`). -/
structure FileMetadata where
  token : String
  filename : String
  fileType : String
  fileData : List Nat
  fileID : Nat
  allowDownloads : Bool
  allowCopying : Bool
  uploadedAt : Int
  expiresAt : Int
  maxViews : Option Int
  currentViews : Int
  status : String
  passwordHash : String
  isEncrypted : Bool
deriving DecidableEq

/-- UploadRequest, mirroring the request struct of `api/upload.go`;
`fileData` is the decoded payload (`base64.StdEncoding.DecodeString` of
the transported string), and `expiresAt = 0` is the Go zero time left by
a caller who omitted the field. -/
structure UploadRequest where
  filename : String
  fileType : String
  fileData : List Nat
  allowDownloads : Bool
  allowCopying : Bool
  maxViews : Option Int
  expiresAt : Int
  passwordHash : String
deriving DecidableEq

/-- The inline-versus-GridFS threshold of `api/upload.go`:
`const maxInlineSize = 1.5 * 1024 * 1024`, an exact integer. -/
def maxInlineSize : Nat := 1572864

/-- Default lifetime applied by the upload handler when the caller omits
`expiresAt`: 72 hours, in nanoseconds. -/
def defaultLifetime : Int := 259200000000000

/-- Record construction of the upload handler (`api/upload.go`): builds
the metadata record, applies the `expiresAt` and `maxViews` defaults,
sets the password fields, and decides inline versus blob storage from
the decoded payload length.  Returns the record together with the blob
write (`some (id, bytes)`) performed when the payload is too large to be
inlined. -/
def uploadCreate (req : UploadRequest) (now : Int) (tok : String) (blobId : Nat) :
    FileMetadata × Option (Nat × List Nat) :=
  let expires := if req.expiresAt = 0 then now + defaultLifetime else req.expiresAt
  let views : Option Int := match req.maxViews with
    | none => some 1
    | some v => some v
  let base : FileMetadata :=
    { token := tok
      filename := req.filename
      fileType := req.fileType
      fileData := []
      fileID := 0
      allowDownloads := req.allowDownloads
      allowCopying := req.allowCopying
      uploadedAt := now
      expiresAt := expires
      maxViews := views
      currentViews := 0
      status := "active"
      passwordHash := if req.passwordHash = "" then "" else req.passwordHash
      isEncrypted := !(req.passwordHash = "") }
  if req.fileData.length ≤ maxInlineSize then
    ({ base with fileData := req.fileData }, none)
  else
    ({ base with fileID := blobId }, some (blobId, req.fileData))

/-- Point update of the blob store, modelling a GridFS upload at a given
id. -/
def updateBlob (b : Nat → Option (List Nat)) (id : Nat) (bs : List Nat) :
    Nat → Option (List Nat) :=
  fun j => if j = id then some bs else b j

/-- The blob store as it stands after the upload handler ran: unchanged
on the inline path, extended by the written object on the GridFS path. -/
def uploadBlobStore (req : UploadRequest) (now : Int) (tok : String) (blobId : Nat)
    (b : Nat → Option (List Nat)) : Nat → Option (List Nat) :=
  match (uploadCreate req now tok blobId).2 with
  | some (id, bs) => updateBlob b id bs
  | none => b

/-- The view handler's view-limit test:
`metadata.MaxViews != nil && metadata.CurrentViews >= *metadata.MaxViews`. -/
def viewLimitHit (m : FileMetadata) : Bool :=
  match m.maxViews with
  | some mv => decide (mv ≤ m.currentViews)
  | none => false

/-- The lazy `markExpired` write issued by the view handler and the
sweeper: `UpdateOne {token} {$set {status: "expired"}}` restricted to a
single record. -/
def setExpired (m : FileMetadata) : FileMetadata :=
  { m with status := "expired" }

/-- The view handler's final `UpdateOne`: the `$inc` of `currentViews`
applies to the record as stored (`target`), while the decision whether
to `$set status: "expired"` is computed from the copy obtained by the
earlier `FindOne` (`copy.CurrentViews+1 >= *copy.MaxViews`).  Keeping
the two arguments separate is what exposes the read-then-write shape of
the handler. -/
def applyViewUpdate (copy target : FileMetadata) : FileMetadata :=
  let bumped := { target with currentViews := target.currentViews + 1 }
  match copy.maxViews with
  | some mv =>
      if copy.currentViews + 1 ≥ mv then { bumped with status := "expired" } else bumped
  | none => bumped

/-- Sequential form of the view-recording update, where the stored
record and the read copy coincide. -/
def recordView (m : FileMetadata) : FileMetadata :=
  applyViewUpdate m m

/-- Possible externally visible outcomes of the view handler once the
record was found. -/
inductive FetchOutcome where
  | gone
  | unauthorized
  | headOk
  | storageError
  | payload (bs : List Nat)
deriving DecidableEq

/-- Byte retrieval of the view handler: the inline branch is taken when
the stored file data is nonempty (`metadata.FileData != ""`), otherwise
the GridFS bucket is consulted at the record's file id. -/
def fetchBytes (blob : Nat → Option (List Nat)) (m : FileMetadata) :
    Option (List Nat) :=
  if m.fileData ≠ [] then some m.fileData else blob m.fileID

/-- One sequential pass of the view handler (`api/view/view.go` and the
HEAD-capable variant) after a successful `FindOne`, returning the
outcome and the record as left in the store.  The guard order is that
of the source: status, time expiry, view limit, password gate, HEAD
short-circuit, byte retrieval, and finally the view-recording update. -/
def processFetch (isHead : Bool) (providedHash : String) (now : Int)
    (blob : Nat → Option (List Nat)) (m : FileMetadata) :
    FetchOutcome × FileMetadata :=
  if m.status ≠ "active" then (.gone, m)
  else if m.expiresAt < now then (.gone, setExpired m)
  else if viewLimitHit m then (.gone, setExpired m)
  else if m.isEncrypted = true ∧ (providedHash = "" ∨ providedHash ≠ m.passwordHash) then
    (.unauthorized, m)
  else if isHead then (.headOk, m)
  else
    match fetchBytes blob m with
    | none => (.storageError, m)
    | some bs => (.payload bs, recordView m)

/-- First-match lookup by token, modelling `FindOne {token: tok}`. -/
def findToken (s : List FileMetadata) (tok : String) : Option FileMetadata :=
  s.find? (fun f => f.token == tok)

/-- First-match update by token, modelling `UpdateOne {token: tok}`. -/
def updateOne : List FileMetadata → String → (FileMetadata → FileMetadata) → List FileMetadata
  | [], _, _ => []
  | r :: rest, tok, g =>
      if r.token == tok then g r :: rest else r :: updateOne rest tok g

/-- Store-level view handler: `FindOne` on the token, then the
sequential fetch pass, then persisting whatever record state the pass
left behind through the token-keyed `UpdateOne`. -/
def viewHandler (isHead : Bool) (providedHash : String) (now : Int)
    (blob : Nat → Option (List Nat)) (s : List FileMetadata) (tok : String) :
    FetchOutcome × List FileMetadata :=
  match findToken s tok with
  | none => (.gone, s)
  | some m =>
      let r := processFetch isHead providedHash now blob m
      (r.1, updateOne s tok (fun _ => r.2))

/-- Metadata record used by the C7 counterexample: an Active record
whose deadline already passed. -/
def staleHeadRecord : FileMetadata :=
  { token := "t", filename := "f", fileType := "text/plain", fileData := [1],
    fileID := 0, allowDownloads := false, allowCopying := false,
    uploadedAt := 0, expiresAt := 0, maxViews := some 5, currentViews := 0,
    status := "active", passwordHash := "", isEncrypted := false }

/-- Upload request used by the C4 counterexample: a decoded payload of
exactly `maxInlineSize` bytes. -/
def thresholdRequest : UploadRequest :=
  { filename := "f", fileType := "text/plain",
    fileData := List.replicate maxInlineSize 0,
    allowDownloads := false, allowCopying := false, maxViews := none,
    expiresAt := 9, passwordHash := "" }

/-- Upload request used by the C8 counterexample: a zero-byte payload,
which the upload handler accepts. -/
def emptyRequest : UploadRequest :=
  { filename := "f", fileType := "text/plain", fileData := [],
    allowDownloads := false, allowCopying := false, maxViews := none,
    expiresAt := 9, passwordHash := "" }

/-- Metadata record used by witnesses: Active, inside its deadline, with
views remaining. -/
def liveRecord : FileMetadata :=
  { token := "t", filename := "f", fileType := "text/plain", fileData := [1, 2],
    fileID := 0, allowDownloads := false, allowCopying := false,
    uploadedAt := 0, expiresAt := 10, maxViews := some 5, currentViews := 0,
    status := "active", passwordHash := "", isEncrypted := false }

/-- Aggregate counters reported by the cleanup handler
(`api/cleanup/cleanup.go`), extended with the number of Active records
promoted to Expired by the two closing `UpdateMany` calls. -/
structure SweepResult where
  gridfsDeleted : Nat
  inlineDeleted : Nat
  metadataDeleted : Nat
  promoted : Nat
deriving DecidableEq

/-- Filter of the first closing `UpdateMany`: Active records whose
deadline lies strictly before the sweep time. -/
def promoteTimeMatch (now : Int) (f : FileMetadata) : Bool :=
  f.status == "active" && decide (f.expiresAt < now)

/-- Filter of the second closing `UpdateMany`: Active records with a
non-null view limit that their counter has reached. -/
def promoteViewMatch (f : FileMetadata) : Bool :=
  f.status == "active" &&
    (match f.maxViews with
     | some mv => decide (mv ≤ f.currentViews)
     | none => false)

/-- The cleanup handler's per-file loop over the Expired records found
by the opening `Find`: a nonzero file id triggers a GridFS delete that
is counted only when the object exists, and otherwise a nonempty inline
field is counted as an inline deletion. -/
def purgeLoop : List FileMetadata → (Nat → Option (List Nat)) → Nat → Nat →
    (Nat → Option (List Nat)) × Nat × Nat
  | [], b, g, i => (b, g, i)
  | f :: rest, b, g, i =>
      if f.fileID ≠ 0 then
        match b f.fileID with
        | some _ => purgeLoop rest (fun j => if j = f.fileID then none else b j) (g + 1) i
        | none => purgeLoop rest b g i
      else if f.fileData ≠ [] then purgeLoop rest b g (i + 1)
      else purgeLoop rest b g i

/-- The cleanup sweep (`api/cleanup/cleanup.go`), in the handler's
order: find Expired records and purge their blobs, `DeleteMany` all
Expired metadata rows, then promote stale Active records to Expired by
the time condition and then by the view-limit condition. -/
def sweep (now : Int) (s : List FileMetadata) (b : Nat → Option (List Nat)) :
    SweepResult × List FileMetadata × (Nat → Option (List Nat)) :=
  let expired := s.filter (fun f => f.status == "expired")
  let purged := purgeLoop expired b 0 0
  let s1 := s.filter (fun f => !(f.status == "expired"))
  let c1 := (s1.filter (promoteTimeMatch now)).length
  let s2 := s1.map (fun f => if promoteTimeMatch now f then setExpired f else f)
  let c2 := (s2.filter promoteViewMatch).length
  let s3 := s2.map (fun f => if promoteViewMatch f then setExpired f else f)
  ({ gridfsDeleted := purged.2.1, inlineDeleted := purged.2.2,
     metadataDeleted := expired.length, promoted := c1 + c2 }, s3, purged.1)

/-- Shared-secret check of the cleanup handler: the Authorization
header must equal the string "Bearer " followed by the CRON_SECRET
environment value. -/
def cleanupAuthorized (authHeader cronSecret : String) : Bool :=
  authHeader == "Bearer " ++ cronSecret

/-- The cleanup handler: reject with Unauthorized before any store
access unless the shared-secret check passes, and otherwise run the
sweep. -/
def cleanupHandler (authHeader cronSecret : String) (now : Int)
    (s : List FileMetadata) (b : Nat → Option (List Nat)) :
    Option SweepResult × List FileMetadata × (Nat → Option (List Nat)) :=
  if cleanupAuthorized authHeader cronSecret then
    let r := sweep now s b
    (some r.1, r.2.1, r.2.2)
  else
    (none, s, b)

/-- The three store-mutating operations of the system: upload (insert a
freshly created record and its optional blob), view (the full handler
pass including its lazy-expiry and view-recording writes), and the
cleanup sweep. -/
inductive Op where
  | opUpload (req : UploadRequest) (now : Int) (tok : String) (bid : Nat)
  | opView (isHead : Bool) (providedHash : String) (now : Int) (tok : String)
  | opSweep (now : Int)

/-- Effect of one operation on the metadata store and the blob store. -/
def applyOp (op : Op) (sb : List FileMetadata × (Nat → Option (List Nat))) :
    List FileMetadata × (Nat → Option (List Nat)) :=
  match op with
  | .opUpload req now tok bid =>
      (sb.1 ++ [(uploadCreate req now tok bid).1], uploadBlobStore req now tok bid sb.2)
  | .opView isHead ph now tok => ((viewHandler isHead ph now sb.2 sb.1 tok).2, sb.2)
  | .opSweep now => ((sweep now sb.1 sb.2).2.1, (sweep now sb.1 sb.2).2.2)

/-- Tokens of the store are pairwise distinct (the uuid-uniqueness
assumption the system relies on). -/
def tokensNodup (s : List FileMetadata) : Prop :=
  (s.map (fun f => f.token)).Nodup

/-- Per-request phases of the view handler, with its two store accesses
(the `FindOne` read and the final `UpdateOne` write) as separate atomic
steps: after the read, the gate decision and the content of the pending
write are fixed from the copy that was read.  This models an
unencrypted GET request whose byte retrieval succeeds. -/
inductive Phase where
  | ready
  | willMark
  | willView (copy : FileMetadata)
  | finished (ok : Bool)
deriving DecidableEq

/-- Gate decision of the view handler, computed from the record copy a
thread has just read: expired status fails with no write, a passed
deadline or reached view limit schedules the lazy mark-expired write,
and otherwise the thread proceeds to serve and schedules the
view-recording write built from this copy. -/
def gateStep (now : Int) (m : FileMetadata) : Phase :=
  if m.status ≠ "active" then .finished false
  else if m.expiresAt < now then .willMark
  else if viewLimitHit m then .willMark
  else .willView m

/-- One atomic step of a thread against the shared record: a read
(taking the gate decision), the mark-expired write, or the
view-recording write whose expiry decision comes from the thread's
stale copy. -/
def viewStep (now : Int) (m : FileMetadata) : Phase → FileMetadata × Phase
  | .ready => (m, gateStep now m)
  | .willMark => (setExpired m, .finished false)
  | .willView copy => (applyViewUpdate copy m, .finished true)
  | .finished ok => (m, .finished ok)

/-- Run an interleaving: the schedule names, step by step, which thread
performs its next atomic store access. -/
def runSched (now : Int) : List Nat → FileMetadata × List Phase → FileMetadata × List Phase
  | [], st => st
  | i :: rest, (m, ps) =>
      match ps[i]? with
      | none => runSched now rest (m, ps)
      | some p =>
          let r := viewStep now m p
          runSched now rest (r.1, ps.set i r.2)

/-- Number of calls that observed the record as not yet gone and served
it. -/
def countSuccess (ps : List Phase) : Nat :=
  ps.countP (fun p => p == Phase.finished true)

/-- The record of the C1 race: Active, inside its deadline, one view
allowed, none taken. -/
def raceRecord : FileMetadata :=
  { token := "t", filename := "f", fileType := "text/plain", fileData := [1, 2],
    fileID := 0, allowDownloads := false, allowCopying := false,
    uploadedAt := 0, expiresAt := 10, maxViews := some 1, currentViews := 0,
    status := "active", passwordHash := "", isEncrypted := false }

/-- C9: at creation, an omitted expiry timestamp defaults to creation
time plus 72 hours and an omitted maxViews defaults to 1, while
caller-supplied values are kept; the persisted record always carries
concrete values. -/
theorem C9_defaults (req : UploadRequest) (now : Int) (tok : String) (bid : Nat) :
    (req.expiresAt = 0 →
      ((uploadCreate req now tok bid).1).expiresAt = now + defaultLifetime) ∧
    (req.expiresAt ≠ 0 →
      ((uploadCreate req now tok bid).1).expiresAt = req.expiresAt) ∧
    (req.maxViews = none → ((uploadCreate req now tok bid).1).maxViews = some 1) ∧
    (∀ v, req.maxViews = some v →
      ((uploadCreate req now tok bid).1).maxViews = some v) := by
  refine ⟨?_, ?_, ?_, ?_⟩ <;> intro h
  · unfold uploadCreate
    repeat' split
    all_goals simp_all
  · unfold uploadCreate
    repeat' split
    all_goals simp_all
  · unfold uploadCreate
    repeat' split
    all_goals simp_all
  · intro hv
    unfold uploadCreate
    repeat' split
    all_goals simp_all

/-- Witness for C9 at a concrete request with both fields omitted. -/
theorem C9_defaults_witness :
    ((uploadCreate
      { filename := "a", fileType := "text/plain", fileData := [1],
        allowDownloads := false, allowCopying := false, maxViews := none,
        expiresAt := 0, passwordHash := "" } 5 "t" 3).1).expiresAt =
        5 + defaultLifetime ∧
    ((uploadCreate
      { filename := "a", fileType := "text/plain", fileData := [1],
        allowDownloads := false, allowCopying := false, maxViews := none,
        expiresAt := 0, passwordHash := "" } 5 "t" 3).1).maxViews = some 1 := by
  refine ⟨?_, ?_⟩
  · exact (C9_defaults
      { filename := "a", fileType := "text/plain", fileData := [1],
        allowDownloads := false, allowCopying := false, maxViews := none,
        expiresAt := 0, passwordHash := "" } 5 "t" 3).1 rfl
  · exact (C9_defaults
      { filename := "a", fileType := "text/plain", fileData := [1],
        allowDownloads := false, allowCopying := false, maxViews := none,
        expiresAt := 0, passwordHash := "" } 5 "t" 3).2.2.1 rfl

/-- C4 counterexample: a decoded payload of exactly 1.5 MB (the
threshold value 1572864) is stored inline with no blob write, whereas
the claim places payloads at or above the threshold in the blob
backend. -/
theorem C4_counterexample_threshold :
    (uploadCreate thresholdRequest 0 "t" 7).2 = none ∧
    ((uploadCreate thresholdRequest 0 "t" 7).1).fileData = thresholdRequest.fileData := by
  simp [uploadCreate, thresholdRequest]

/-- C4 (amended): storage location is decided once at creation from the
decoded payload length against the fixed 1.5 MB threshold, with
payloads at or below the threshold embedded inline and payloads
strictly above it written to the blob backend under the generated id. -/
theorem C4_inline_blob_selection (req : UploadRequest) (now : Int) (tok : String) (bid : Nat) :
    (req.fileData.length ≤ maxInlineSize →
      (uploadCreate req now tok bid).2 = none ∧
      ((uploadCreate req now tok bid).1).fileData = req.fileData ∧
      ((uploadCreate req now tok bid).1).fileID = 0) ∧
    (maxInlineSize < req.fileData.length →
      (uploadCreate req now tok bid).2 = some (bid, req.fileData) ∧
      ((uploadCreate req now tok bid).1).fileData = [] ∧
      ((uploadCreate req now tok bid).1).fileID = bid) := by
  constructor <;> intro h
  · simp [uploadCreate, h]
  · have h' : ¬ req.fileData.length ≤ maxInlineSize := by omega
    simp [uploadCreate, h']

/-- Witness for C4 at a two-byte payload, which is stored inline. -/
theorem C4_inline_blob_selection_witness :
    (uploadCreate
      { filename := "a", fileType := "text/plain", fileData := [1, 2],
        allowDownloads := false, allowCopying := false, maxViews := none,
        expiresAt := 9, passwordHash := "" } 0 "t" 7).2 = none ∧
    ((uploadCreate
      { filename := "a", fileType := "text/plain", fileData := [1, 2],
        allowDownloads := false, allowCopying := false, maxViews := none,
        expiresAt := 9, passwordHash := "" } 0 "t" 7).1).fileData = [1, 2] ∧
    ((uploadCreate
      { filename := "a", fileType := "text/plain", fileData := [1, 2],
        allowDownloads := false, allowCopying := false, maxViews := none,
        expiresAt := 9, passwordHash := "" } 0 "t" 7).1).fileID = 0 :=
  (C4_inline_blob_selection
    { filename := "a", fileType := "text/plain", fileData := [1, 2],
      allowDownloads := false, allowCopying := false, maxViews := none,
      expiresAt := 9, passwordHash := "" } 0 "t" 7).1 (by decide)

/-- C6: the fetch path denies with Unauthorized exactly when the gate is
reached on an encrypted record and the caller-supplied hash is empty or
differs from the stored hash; in particular an unencrypted record is
never denied by the gate, an empty caller hash is always a mismatch,
and an exact nonempty match is never denied. -/
theorem C6_access_gate (isHead : Bool) (ph : String) (now : Int)
    (blob : Nat → Option (List Nat)) (m : FileMetadata) :
    (processFetch isHead ph now blob m).1 = .unauthorized ↔
      (m.status = "active" ∧ ¬ m.expiresAt < now ∧ viewLimitHit m = false ∧
       m.isEncrypted = true ∧ (ph = "" ∨ ph ≠ m.passwordHash)) := by
  unfold processFetch
  repeat' split
  all_goals simp_all
  all_goals
    intro hEnc hpw
    rcases ‹m.isEncrypted = true → ¬ph = "" ∧ ph = m.passwordHash› hEnc with ⟨h1, h2⟩
    exact h1 (h2.trans hpw)

/-- C2: on a found record the expiry evaluation order is: an already
Expired status short-circuits to Gone with no write; otherwise a passed
deadline yields Gone and lazily marks the record Expired; otherwise a
reached view limit yields Gone and lazily marks the record Expired;
otherwise the outcome is not Gone.  A record created with its deadline
in the past is Gone on its first fetch even with zero views. -/
theorem C2_expiry_order (isHead : Bool) (ph : String) (now : Int)
    (blob : Nat → Option (List Nat)) (m : FileMetadata) :
    (m.status = "expired" → processFetch isHead ph now blob m = (.gone, m)) ∧
    (m.status = "active" → m.expiresAt < now →
      processFetch isHead ph now blob m = (.gone, setExpired m)) ∧
    (m.status = "active" → ¬ m.expiresAt < now → viewLimitHit m = true →
      processFetch isHead ph now blob m = (.gone, setExpired m)) ∧
    (m.status = "active" → ¬ m.expiresAt < now → viewLimitHit m = false →
      (processFetch isHead ph now blob m).1 ≠ .gone) ∧
    (∀ (req : UploadRequest) (now1 : Int) (tok : String) (bid : Nat),
      req.expiresAt ≠ 0 → req.expiresAt < now →
      processFetch isHead ph now blob (uploadCreate req now1 tok bid).1 =
        (.gone, setExpired (uploadCreate req now1 tok bid).1) ∧
      ((uploadCreate req now1 tok bid).1).currentViews = 0) := by
  refine ⟨?_, ?_, ?_, ?_, ?_⟩
  · intro h
    simp [processFetch, h]
  · intro h ht
    simp [processFetch, h, ht]
  · intro h ht hv
    simp [processFetch, h, ht, hv]
  · intro h ht hv
    unfold processFetch
    simp only [h, ht, hv]
    repeat' split
    all_goals simp_all
  · intro req now1 tok bid hz ht
    have hst : ((uploadCreate req now1 tok bid).1).status = "active" := by
      unfold uploadCreate
      repeat' split
      all_goals rfl
    have hexp : ((uploadCreate req now1 tok bid).1).expiresAt = req.expiresAt := by
      unfold uploadCreate
      repeat' split
      all_goals simp_all
    refine ⟨?_, ?_⟩
    · simp [processFetch, hst, hexp, ht]
    · unfold uploadCreate
      repeat' split
      all_goals rfl

/-- Witness for C2: a concrete Active record whose deadline has passed
is Gone and marked Expired. -/
theorem C2_expiry_order_witness :
    processFetch false "" 1 (fun _ => none) staleHeadRecord =
      (.gone, setExpired staleHeadRecord) :=
  (C2_expiry_order false "" 1 (fun _ => none) staleHeadRecord).2.1 (by decide) (by decide)

/-- C7 counterexample: a metadata-only (HEAD) fetch of a still-Active
record whose deadline has passed returns Gone and changes the record's
status to Expired, so a HEAD fetch does not leave every field unchanged
(the view counter, however, is untouched). -/
theorem C7_counterexample_head_lazy_expire :
    (processFetch true "" 1 (fun _ => none) staleHeadRecord).1 = .gone ∧
    ((processFetch true "" 1 (fun _ => none) staleHeadRecord).2).status = "expired" ∧
    staleHeadRecord.status = "active" ∧
    ((processFetch true "" 1 (fun _ => none) staleHeadRecord).2).currentViews =
      staleHeadRecord.currentViews := by
  decide

/-- Helper: a fetch that returned a payload persisted exactly the
view-recording update. -/
theorem processFetch_payload_snd (isHead : Bool) (ph : String) (now : Int)
    (blob : Nat → Option (List Nat)) (m : FileMetadata) (bs : List Nat)
    (h : (processFetch isHead ph now blob m).1 = FetchOutcome.payload bs) :
    (processFetch isHead ph now blob m).2 = recordView m := by
  revert h
  unfold processFetch
  repeat' split
  all_goals simp_all

/-- Helper: the view-recording update bumps the counter and touches no
field other than currentViews and status. -/
theorem recordView_frame (m : FileMetadata) :
    (recordView m).currentViews = m.currentViews + 1 ∧
    (recordView m).token = m.token ∧
    (recordView m).filename = m.filename ∧
    (recordView m).fileType = m.fileType ∧
    (recordView m).fileData = m.fileData ∧
    (recordView m).fileID = m.fileID ∧
    (recordView m).allowDownloads = m.allowDownloads ∧
    (recordView m).allowCopying = m.allowCopying ∧
    (recordView m).uploadedAt = m.uploadedAt ∧
    (recordView m).expiresAt = m.expiresAt ∧
    (recordView m).maxViews = m.maxViews ∧
    (recordView m).passwordHash = m.passwordHash ∧
    (recordView m).isEncrypted = m.isEncrypted := by
  unfold recordView applyViewUpdate
  repeat' split
  all_goals simp_all

/-- Helper: a fetch that answered the HEAD short-circuit left the record
untouched. -/
theorem processFetch_headOk_snd (isHead : Bool) (ph : String) (now : Int)
    (blob : Nat → Option (List Nat)) (m : FileMetadata)
    (h : (processFetch isHead ph now blob m).1 = FetchOutcome.headOk) :
    (processFetch isHead ph now blob m).2 = m := by
  revert h
  unfold processFetch
  repeat' split
  all_goals simp_all

/-- C7 (amended): a successful full fetch increments currentViews by
exactly one and changes no field other than currentViews and status; a
HEAD fetch never changes currentViews; and a successful HEAD fetch
leaves the record entirely unchanged.  (A HEAD fetch that finds the
record stale may still lazily set status to Expired.) -/
theorem C7_view_increment (ph : String) (now : Int)
    (blob : Nat → Option (List Nat)) (m : FileMetadata) :
    (∀ bs, (processFetch false ph now blob m).1 = .payload bs →
      ((processFetch false ph now blob m).2).currentViews = m.currentViews + 1 ∧
      ((processFetch false ph now blob m).2).token = m.token ∧
      ((processFetch false ph now blob m).2).filename = m.filename ∧
      ((processFetch false ph now blob m).2).fileType = m.fileType ∧
      ((processFetch false ph now blob m).2).fileData = m.fileData ∧
      ((processFetch false ph now blob m).2).fileID = m.fileID ∧
      ((processFetch false ph now blob m).2).allowDownloads = m.allowDownloads ∧
      ((processFetch false ph now blob m).2).allowCopying = m.allowCopying ∧
      ((processFetch false ph now blob m).2).uploadedAt = m.uploadedAt ∧
      ((processFetch false ph now blob m).2).expiresAt = m.expiresAt ∧
      ((processFetch false ph now blob m).2).maxViews = m.maxViews ∧
      ((processFetch false ph now blob m).2).passwordHash = m.passwordHash ∧
      ((processFetch false ph now blob m).2).isEncrypted = m.isEncrypted) ∧
    (((processFetch true ph now blob m).2).currentViews = m.currentViews) ∧
    ((processFetch true ph now blob m).1 = .headOk →
      (processFetch true ph now blob m).2 = m) := by
  refine ⟨?_, ?_, ?_⟩
  · intro bs hbs
    rw [processFetch_payload_snd false ph now blob m bs hbs]
    exact recordView_frame m
  · unfold processFetch
    repeat' split
    all_goals simp_all [setExpired]
  · intro h
    exact processFetch_headOk_snd true ph now blob m h

/-- Witness for C7: a concrete successful full fetch bumps the view
counter from 0 to 1. -/
theorem C7_view_increment_witness :
    ((processFetch false "" 0 (fun _ => none) liveRecord).2).currentViews =
      liveRecord.currentViews + 1 :=
  ((C7_view_increment "" 0 (fun _ => none) liveRecord).1 [1, 2] (by decide)).1

/-- Helper: fields of a freshly created record that do not depend on
the storage branch. -/
theorem uploadCreate_fields (req : UploadRequest) (now : Int) (tok : String) (bid : Nat) :
    ((uploadCreate req now tok bid).1).status = "active" ∧
    ((uploadCreate req now tok bid).1).currentViews = 0 ∧
    ((uploadCreate req now tok bid).1).passwordHash = req.passwordHash ∧
    ((uploadCreate req now tok bid).1).isEncrypted = !(req.passwordHash = "") ∧
    ((uploadCreate req now tok bid).1).token = tok := by
  unfold uploadCreate
  repeat' split
  all_goals simp_all

/-- Helper: the created record always carries a concrete view limit,
the caller's when supplied and 1 otherwise. -/
theorem uploadCreate_maxViews (req : UploadRequest) (now : Int) (tok : String) (bid : Nat) :
    ((uploadCreate req now tok bid).1).maxViews = some (req.maxViews.getD 1) := by
  unfold uploadCreate
  repeat' split
  all_goals simp_all

/-- Helper: the storage branch taken by the upload handler, as seen in
the created record and the blob write. -/
theorem uploadCreate_storage (req : UploadRequest) (now : Int) (tok : String) (bid : Nat) :
    (req.fileData.length ≤ maxInlineSize →
      ((uploadCreate req now tok bid).1).fileData = req.fileData ∧
      (uploadCreate req now tok bid).2 = none) ∧
    (¬ req.fileData.length ≤ maxInlineSize →
      ((uploadCreate req now tok bid).1).fileData = [] ∧
      ((uploadCreate req now tok bid).1).fileID = bid ∧
      (uploadCreate req now tok bid).2 = some (bid, req.fileData)) := by
  constructor <;> intro h <;> simp [uploadCreate, h]

/-- C8 counterexample: a zero-byte payload is accepted at creation and
stored inline as the empty string, but the fetch path treats the empty
inline field as blob-backed and fails with a storage error, so upload
followed by fetch is not a round trip for it. -/
theorem C8_counterexample_empty_payload :
    (processFetch false "" 0 (uploadBlobStore emptyRequest 0 "t" 7 (fun _ => none))
      (uploadCreate emptyRequest 0 "t" 7).1).1 = .storageError := by
  decide

/-- C8 (amended): for every nonempty payload accepted at creation, a
fetch inside the deadline with the creating request's password hash and
a positive view limit succeeds and returns exactly the uploaded bytes,
on the inline path and on the blob path alike. -/
theorem C8_round_trip (req : UploadRequest) (now1 now2 : Int) (tok : String) (bid : Nat)
    (b : Nat → Option (List Nat))
    (hne : req.fileData ≠ [])
    (hmv : ∀ v, req.maxViews = some v → 1 ≤ v)
    (ht : ¬ ((uploadCreate req now1 tok bid).1).expiresAt < now2) :
    (processFetch false req.passwordHash now2 (uploadBlobStore req now1 tok bid b)
      (uploadCreate req now1 tok bid).1).1 = .payload req.fileData := by
  obtain ⟨hst, hcv, hpwf, henc, -⟩ := uploadCreate_fields req now1 tok bid
  have hmx := uploadCreate_maxViews req now1 tok bid
  have hvl : viewLimitHit (uploadCreate req now1 tok bid).1 = false := by
    unfold viewLimitHit
    rw [hmx, hcv]
    rcases h : req.maxViews with _ | v
    · simp [h]
    · have := hmv v h
      simp [h]
      omega
  have hgate : ¬ (((uploadCreate req now1 tok bid).1).isEncrypted = true ∧
      (req.passwordHash = "" ∨ req.passwordHash ≠ ((uploadCreate req now1 tok bid).1).passwordHash)) := by
    rw [henc, hpwf]
    by_cases hpw : req.passwordHash = "" <;> simp [hpw]
  have hfb : fetchBytes (uploadBlobStore req now1 tok bid b)
      (uploadCreate req now1 tok bid).1 = some req.fileData := by
    unfold fetchBytes uploadBlobStore
    by_cases hsz : req.fileData.length ≤ maxInlineSize
    · obtain ⟨hfd, hw⟩ := (uploadCreate_storage req now1 tok bid).1 hsz
      rw [hw, hfd]
      simp [hne]
    · obtain ⟨hfd, hid, hw⟩ := (uploadCreate_storage req now1 tok bid).2 hsz
      rw [hw, hfd, hid]
      simp [updateBlob]
  simp [processFetch, hst, ht, hvl, hgate, hfb]

/-- Witness for C8: a concrete three-byte upload is fetched back
byte-identical. -/
theorem C8_round_trip_witness :
    (processFetch false "" 5
      (uploadBlobStore
        { filename := "a", fileType := "text/plain", fileData := [1, 2, 3],
          allowDownloads := false, allowCopying := false, maxViews := none,
          expiresAt := 9, passwordHash := "" } 0 "t" 7 (fun _ => none))
      (uploadCreate
        { filename := "a", fileType := "text/plain", fileData := [1, 2, 3],
          allowDownloads := false, allowCopying := false, maxViews := none,
          expiresAt := 9, passwordHash := "" } 0 "t" 7).1).1 = .payload [1, 2, 3] :=
  C8_round_trip
    { filename := "a", fileType := "text/plain", fileData := [1, 2, 3],
      allowDownloads := false, allowCopying := false, maxViews := none,
      expiresAt := 9, passwordHash := "" } 0 5 "t" 7 (fun _ => none)
    (by decide) (by intro v h; cases h) (by decide)

/-- Helper: the sweep unfolded to its components. -/
theorem sweep_eq (now : Int) (s : List FileMetadata) (b : Nat → Option (List Nat)) :
    sweep now s b =
      ({ gridfsDeleted := (purgeLoop (s.filter fun f => f.status == "expired") b 0 0).2.1,
         inlineDeleted := (purgeLoop (s.filter fun f => f.status == "expired") b 0 0).2.2,
         metadataDeleted := (s.filter fun f => f.status == "expired").length,
         promoted :=
           ((s.filter fun f => !(f.status == "expired")).filter (promoteTimeMatch now)).length +
           (((s.filter fun f => !(f.status == "expired")).map
               fun g => if promoteTimeMatch now g then setExpired g else g).filter
             promoteViewMatch).length },
       ((s.filter fun f => !(f.status == "expired")).map
           fun g => if promoteTimeMatch now g then setExpired g else g).map
         (fun g => if promoteViewMatch g then setExpired g else g),
       (purgeLoop (s.filter fun f => f.status == "expired") b 0 0).1) := rfl

/-- Helper: a record just set Expired matches neither promotion filter. -/
theorem promoteMatch_setExpired (now : Int) (g : FileMetadata) :
    promoteTimeMatch now (setExpired g) = false ∧
    promoteViewMatch (setExpired g) = false := by
  constructor <;> simp [promoteTimeMatch, promoteViewMatch, setExpired]

/-- Helper: after the sweep's two promotion passes, no surviving record
matches either promotion filter at the same sweep time. -/
theorem promoted_stable (now : Int) (l : List FileMetadata) (f : FileMetadata)
    (hf : f ∈ (l.map fun g => if promoteTimeMatch now g then setExpired g else g).map
        fun g => if promoteViewMatch g then setExpired g else g) :
    promoteTimeMatch now f = false ∧ promoteViewMatch f = false := by
  simp only [List.mem_map] at hf
  obtain ⟨x, ⟨y, hy, hyx⟩, hxf⟩ := hf
  by_cases h1 : promoteTimeMatch now y = true
  · rw [if_pos h1] at hyx
    subst hyx
    have hx := promoteMatch_setExpired now y
    rw [if_neg (by simp [hx.2])] at hxf
    subst hxf
    exact hx
  · rw [if_neg h1] at hyx
    subst hyx
    by_cases h2 : promoteViewMatch y = true
    · rw [if_pos h2] at hxf
      subst hxf
      exact promoteMatch_setExpired now y
    · rw [if_neg h2] at hxf
      subst hxf
      exact ⟨by simpa using h1, by simpa using h2⟩

/-- Helper: counting a disjunction of disjoint Boolean predicates splits
into a sum. -/
theorem countP_or_split (p q : FileMetadata → Bool) (l : List FileMetadata)
    (h : ∀ a ∈ l, p a = true → q a = false) :
    l.countP (fun a => p a || q a) = l.countP p + l.countP q := by
  induction l with
  | nil => simp
  | cons a as ih =>
      simp only [List.countP_cons]
      rw [ih (fun x hx => h x (List.mem_cons_of_mem a hx))]
      by_cases hp : p a = true
      · have hq := h a (List.mem_cons_self a as) hp
        simp [hp, hq]
        omega
      · simp only [Bool.not_eq_true] at hp
        simp [hp]
        omega

/-- Helper: a record matching either promotion filter is not Expired. -/
theorem promoteMatch_not_expired (now : Int) (f : FileMetadata) :
    (promoteTimeMatch now f = true → (f.status == "expired") = false) ∧
    (promoteViewMatch f = true → (f.status == "expired") = false) := by
  constructor <;> intro h
  · simp only [promoteTimeMatch, Bool.and_eq_true, beq_iff_eq] at h
    simp [h.1]
  · simp only [promoteViewMatch, Bool.and_eq_true, beq_iff_eq] at h
    simp [h.1]

/-- Helper: one promotion pass adds exactly the matched records to the
Expired count. -/
theorem countP_expired_map_promote (p : FileMetadata → Bool) (l : List FileMetadata)
    (hp : ∀ f ∈ l, p f = true → (f.status == "expired") = false) :
    (l.map fun g => if p g then setExpired g else g).countP
        (fun f => f.status == "expired") =
      l.countP p + l.countP (fun f => f.status == "expired") := by
  rw [List.countP_map]
  have hcong : ∀ f ∈ l,
      ((fun f => f.status == "expired") ∘ fun g => if p g then setExpired g else g) f
        ↔ (fun a => p a || (a.status == "expired")) f := by
    intro f hf
    by_cases h : p f = true
    · simp [h, setExpired]
    · simp only [Bool.not_eq_true] at h
      simp [h]
  rw [List.countP_congr hcong]
  exact countP_or_split p _ l hp

/-- C5 counterexample: on a store holding one Active record whose
deadline has passed, the first sweep promotes it (deleting nothing) and
the second sweep, against the otherwise unchanged store, deletes that
record — one metadata row and one inline file — instead of deleting
zero records. -/
theorem C5_counterexample_second_run_deletes :
    (sweep 1 [staleHeadRecord] (fun _ => none)).1.promoted = 1 ∧
    (sweep 1 [staleHeadRecord] (fun _ => none)).1.metadataDeleted = 0 ∧
    (sweep 1 (sweep 1 [staleHeadRecord] (fun _ => none)).2.1
        (sweep 1 [staleHeadRecord] (fun _ => none)).2.2).1.metadataDeleted = 1 ∧
    (sweep 1 (sweep 1 [staleHeadRecord] (fun _ => none)).2.1
        (sweep 1 [staleHeadRecord] (fun _ => none)).2.2).1.inlineDeleted = 1 := by
  decide

/-- C5 (amended): because the sweep promotes stale Active records only
after its deletion step, a second immediate run promotes zero records
but deletes exactly the rows the first run promoted (its metadata
deletion count equals the first run's promotion count); the second run
deletes nothing only when the first run promoted nothing. -/
theorem C5_sweep_second_run (now : Int) (s : List FileMetadata)
    (b : Nat → Option (List Nat)) :
    (sweep now (sweep now s b).2.1 (sweep now s b).2.2).1.promoted = 0 ∧
    (sweep now (sweep now s b).2.1 (sweep now s b).2.2).1.metadataDeleted =
      (sweep now s b).1.promoted ∧
    ((sweep now s b).1.promoted = 0 →
      (sweep now (sweep now s b).2.1 (sweep now s b).2.2).1.gridfsDeleted = 0 ∧
      (sweep now (sweep now s b).2.1 (sweep now s b).2.2).1.inlineDeleted = 0 ∧
      (sweep now (sweep now s b).2.1 (sweep now s b).2.2).1.metadataDeleted = 0) := by
  have hstab : ∀ f ∈ (sweep now s b).2.1,
      promoteTimeMatch now f = false ∧ promoteViewMatch f = false := by
    rw [sweep_eq now s b]
    intro f hf
    exact promoted_stable now _ f hf
  have hE1 : ∀ f ∈ s.filter (fun f => !(f.status == "expired")),
      (f.status == "expired") = false := by
    intro f hf
    have h := (List.mem_filter.mp hf).2
    simpa using h
  have hcnt : ((sweep now s b).2.1).countP (fun f => f.status == "expired") =
      (sweep now s b).1.promoted := by
    rw [sweep_eq now s b]
    dsimp only
    rw [countP_expired_map_promote promoteViewMatch _
      (fun f _ h => (promoteMatch_not_expired now f).2 h)]
    rw [countP_expired_map_promote (promoteTimeMatch now) _
      (fun f _ h => (promoteMatch_not_expired now f).1 h)]
    have hz1 : (s.filter (fun f => !(f.status == "expired"))).countP
        (fun f => f.status == "expired") = 0 := by
      rw [List.countP_eq_length_filter]
      have hnil : (s.filter (fun f => !(f.status == "expired"))).filter
          (fun f => f.status == "expired") = [] := by
        rw [List.filter_eq_nil_iff]
        intro f hf
        simp [hE1 f hf]
      rw [hnil]
      rfl
    rw [hz1, List.countP_eq_length_filter, List.countP_eq_length_filter]
    omega
  have h4 : ∀ f ∈ ((sweep now s b).2.1).filter (fun f => !(f.status == "expired")),
      promoteTimeMatch now f = false ∧ promoteViewMatch f = false :=
    fun f hf => hstab f (List.mem_filter.mp hf).1
  have hp0 : (sweep now (sweep now s b).2.1 (sweep now s b).2.2).1.promoted = 0 := by
    rw [sweep_eq now ((sweep now s b).2.1) ((sweep now s b).2.2)]
    dsimp only
    have hA : (((sweep now s b).2.1).filter (fun f => !(f.status == "expired"))).filter
        (promoteTimeMatch now) = [] := by
      rw [List.filter_eq_nil_iff]
      intro f hf
      simp [(h4 f hf).1]
    have hB : (((sweep now s b).2.1).filter (fun f => !(f.status == "expired"))).map
        (fun g => if promoteTimeMatch now g then setExpired g else g) =
        (((sweep now s b).2.1).filter (fun f => !(f.status == "expired"))).map id :=
      List.map_congr_left (fun a ha => by simp [(h4 a ha).1])
    have hC : (((sweep now s b).2.1).filter (fun f => !(f.status == "expired"))).filter
        promoteViewMatch = [] := by
      rw [List.filter_eq_nil_iff]
      intro f hf
      simp [(h4 f hf).2]
    rw [hB, List.map_id, hA, hC]
    rfl
  have hmd : (sweep now (sweep now s b).2.1 (sweep now s b).2.2).1.metadataDeleted =
      (sweep now s b).1.promoted := by
    rw [sweep_eq now ((sweep now s b).2.1) ((sweep now s b).2.2)]
    dsimp only
    rw [← List.countP_eq_length_filter]
    exact hcnt
  refine ⟨hp0, hmd, ?_⟩
  intro hz
  have h0 : ((sweep now s b).2.1).countP (fun f => f.status == "expired") = 0 := by
    rw [hcnt, hz]
  have hnil : ((sweep now s b).2.1).filter (fun f => f.status == "expired") = [] := by
    rw [List.countP_eq_length_filter] at h0
    exact List.length_eq_zero.mp h0
  rw [sweep_eq now ((sweep now s b).2.1) ((sweep now s b).2.2)]
  dsimp only
  simp [hnil, purgeLoop]

/-- Witness for C5 on the empty store, where the first run promotes
nothing and the second run deletes nothing. -/
theorem C5_sweep_second_run_witness :
    (sweep 0 (sweep 0 [] (fun _ => none)).2.1
        (sweep 0 [] (fun _ => none)).2.2).1.gridfsDeleted = 0 ∧
    (sweep 0 (sweep 0 [] (fun _ => none)).2.1
        (sweep 0 [] (fun _ => none)).2.2).1.inlineDeleted = 0 ∧
    (sweep 0 (sweep 0 [] (fun _ => none)).2.1
        (sweep 0 [] (fun _ => none)).2.2).1.metadataDeleted = 0 :=
  (C5_sweep_second_run 0 [] (fun _ => none)).2.2 (by decide)

/-- C10: the cleanup handler's shared-secret check is exact string
equality of the Authorization header with "Bearer " plus CRON_SECRET; a
failed check is rejected before any store access, a passed check runs
the sweep, and with an unset (empty) secret the bare header "Bearer "
is accepted. -/
theorem C10_cleanup_auth (h sec : String) (now : Int) (s : List FileMetadata)
    (b : Nat → Option (List Nat)) :
    (cleanupAuthorized h sec = true ↔ h = "Bearer " ++ sec) ∧
    cleanupAuthorized "Bearer " "" = true ∧
    (cleanupAuthorized h sec = false → cleanupHandler h sec now s b = (none, s, b)) ∧
    (cleanupAuthorized h sec = true →
      (cleanupHandler h sec now s b).1 = some (sweep now s b).1) := by
  refine ⟨?_, by decide, ?_, ?_⟩
  · simp [cleanupAuthorized]
  · intro hf
    simp [cleanupHandler, hf]
  · intro htr
    simp [cleanupHandler, htr]

/-- Witness for C10: with an empty secret, the header "Bearer " runs
the sweep. -/
theorem C10_cleanup_auth_witness :
    (cleanupHandler "Bearer " "" 0 [] (fun _ => none)).1 =
      some (sweep 0 [] (fun _ => none)).1 :=
  (C10_cleanup_auth "Bearer " "" 0 [] (fun _ => none)).2.2.2 (by decide)

/-- Helper: findToken on a cons cell. -/
theorem findToken_cons (r : FileMetadata) (rest : List FileMetadata) (tok : String) :
    findToken (r :: rest) tok =
      if r.token == tok then some r else findToken rest tok := by
  by_cases h : r.token == tok
  · simp [findToken, h]
  · simp [findToken, h]

/-- Helper: updateOne on a cons cell. -/
theorem updateOne_cons (r : FileMetadata) (rest : List FileMetadata) (tok : String)
    (g : FileMetadata → FileMetadata) :
    updateOne (r :: rest) tok g =
      if r.token == tok then g r :: rest else r :: updateOne rest tok g := rfl

/-- Helper: a token-keyed update keyed by a different token does not
change what findToken sees. -/
theorem findToken_updateOne_ne (s : List FileMetadata) (tok tok2 : String)
    (g : FileMetadata → FileMetadata) (hne : tok2 ≠ tok)
    (hg : ∀ x, x.token = tok2 → (g x).token = tok2) :
    findToken (updateOne s tok2 g) tok = findToken s tok := by
  induction s with
  | nil => rfl
  | cons r rest ih =>
      rw [updateOne_cons]
      by_cases hr : r.token == tok2
      · rw [if_pos hr]
        have hrt : r.token = tok2 := by simpa using hr
        have h1 : (g r).token = tok2 := hg r hrt
        rw [findToken_cons, findToken_cons,
          if_neg (by simp [h1, hne]), if_neg (by simp [hrt, hne])]
      · rw [if_neg hr, findToken_cons, findToken_cons]
        by_cases hrt : r.token == tok
        · rw [if_pos hrt, if_pos hrt]
        · rw [if_neg hrt, if_neg hrt]
          exact ih

/-- Helper: a token-keyed update keyed by the looked-up token maps the
found record through the update. -/
theorem findToken_updateOne_eq (s : List FileMetadata) (tok : String)
    (g : FileMetadata → FileMetadata)
    (hg : ∀ x, x.token = tok → (g x).token = tok) :
    findToken (updateOne s tok g) tok = (findToken s tok).map g := by
  induction s with
  | nil => rfl
  | cons r rest ih =>
      rw [updateOne_cons]
      by_cases hr : r.token == tok
      · rw [if_pos hr]
        have h1 : (g r).token = tok := hg r (by simpa using hr)
        rw [findToken_cons, findToken_cons, if_pos (by simp [h1]), if_pos hr]
        rfl
      · rw [if_neg hr, findToken_cons, findToken_cons, if_neg hr, if_neg hr]
        exact ih

/-- Helper: with pairwise distinct tokens, a token determines its
record. -/
theorem token_unique (s : List FileMetadata) (hnd : tokensNodup s)
    (a c : FileMetadata) (ha : a ∈ s) (hc : c ∈ s) (h : a.token = c.token) :
    a = c := by
  induction s with
  | nil => cases ha
  | cons r rest ih =>
      have hnd2 : tokensNodup rest ∧ r.token ∉ rest.map (fun f => f.token) := by
        unfold tokensNodup at hnd ⊢
        rw [List.map_cons, List.nodup_cons] at hnd
        exact ⟨hnd.2, hnd.1⟩
      rcases List.mem_cons.mp ha with ha1 | ha2 <;> rcases List.mem_cons.mp hc with hc1 | hc2
      · rw [ha1, hc1]
      · exfalso
        apply hnd2.2
        subst ha1
        exact h ▸ List.mem_map_of_mem (fun f => f.token) hc2
      · exfalso
        apply hnd2.2
        subst hc1
        exact h ▸ List.mem_map_of_mem (fun f => f.token) ha2
      · exact ih hnd2.1 ha2 hc2

/-- Helper: the fetch pass never changes the record's token. -/
theorem processFetch_token (isHead : Bool) (ph : String) (now : Int)
    (blob : Nat → Option (List Nat)) (m : FileMetadata) :
    ((processFetch isHead ph now blob m).2).token = m.token := by
  unfold processFetch
  repeat' split
  all_goals simp [setExpired, (recordView_frame m).2.1]

/-- Helper: the fetch pass short-circuits on an Expired record and
leaves it unchanged. -/
theorem processFetch_expired (isHead : Bool) (ph : String) (now : Int)
    (blob : Nat → Option (List Nat)) (m : FileMetadata)
    (h : m.status = "expired") :
    processFetch isHead ph now blob m = (.gone, m) := by
  simp [processFetch, h]

/-- Helper: every record surviving a sweep carries the token of a
non-Expired record of the original store. -/
theorem sweep_mem_token (now : Int) (s : List FileMetadata)
    (b : Nat → Option (List Nat)) (f : FileMetadata)
    (hf : f ∈ (sweep now s b).2.1) :
    ∃ y, y ∈ s ∧ f.token = y.token ∧ (y.status == "expired") = false := by
  rw [sweep_eq now s b] at hf
  dsimp only at hf
  simp only [List.mem_map] at hf
  obtain ⟨x, ⟨y, hy, hyx⟩, hxf⟩ := hf
  have hy1 := (List.mem_filter.mp hy).1
  have hy2 : (y.status == "expired") = false := by
    have := (List.mem_filter.mp hy).2
    simpa using this
  refine ⟨y, hy1, ?_, hy2⟩
  have hx : x.token = y.token := by
    rw [← hyx]
    by_cases h : promoteTimeMatch now y = true <;> simp [h, setExpired]
  rw [← hxf]
  by_cases h : promoteViewMatch x = true <;> simp [h, setExpired, hx]

/-- C3: under uuid-distinct tokens, no create, view, or sweep operation
ever turns an Expired record back into an Active one: whenever the
token still resolves to a record afterwards, that record is still
Expired. -/
theorem C3_status_monotone (op : Op) (s : List FileMetadata)
    (b : Nat → Option (List Nat)) (tok : String) (r r' : FileMetadata)
    (hnd : tokensNodup s)
    (hr : findToken s tok = some r)
    (hexp : r.status = "expired")
    (hr' : findToken (applyOp op (s, b)).1 tok = some r') :
    r'.status = "expired" := by
  have hrmem : r ∈ s := List.mem_of_find?_eq_some hr
  have hrtok : r.token = tok := by
    have := List.find?_some hr
    simpa using this
  cases op with
  | opUpload req now tok3 bid =>
      have happ : findToken (s ++ [(uploadCreate req now tok3 bid).1]) tok = some r := by
        unfold findToken at hr ⊢
        rw [List.find?_append, hr]
        rfl
      rw [applyOp] at hr'
      dsimp only at hr'
      rw [happ] at hr'
      injection hr' with h
      rw [← h]
      exact hexp
  | opView isHead ph now tok2 =>
      rw [applyOp] at hr'
      dsimp only at hr'
      unfold viewHandler at hr'
      cases hft : findToken s tok2 with
      | none =>
          rw [hft] at hr'
          dsimp only at hr'
          rw [hr] at hr'
          injection hr' with h
          rw [← h]
          exact hexp
      | some m2 =>
          rw [hft] at hr'
          dsimp only at hr'
          have hm2tok : m2.token = tok2 := by
            have := List.find?_some hft
            simpa using this
          have hgtok : ∀ x : FileMetadata, x.token = tok2 →
              ((fun _ => (processFetch isHead ph now b m2).2) x).token = tok2 := by
            intro x hx
            have := processFetch_token isHead ph now b m2
            simpa [this] using hm2tok
          by_cases hteq : tok2 = tok
          · subst hteq
            rw [findToken_updateOne_eq s tok2 _ hgtok, hft] at hr'
            have hm2r : m2 = r := by
              rw [hft] at hr
              injection hr
            subst hm2r
            rw [processFetch_expired isHead ph now b m2 hexp] at hr'
            injection hr' with h
            rw [← h]
            exact hexp
          · rw [findToken_updateOne_ne s tok tok2 _ hteq hgtok, hr] at hr'
            injection hr' with h
            rw [← h]
            exact hexp
  | opSweep now =>
      rw [applyOp] at hr'
      dsimp only at hr'
      have hnone : findToken (sweep now s b).2.1 tok = none := by
        unfold findToken
        rw [List.find?_eq_none]
        intro f hf
        obtain ⟨y, hy, hft, hyE⟩ := sweep_mem_token now s b f hf
        simp only [beq_iff_eq]
        intro hfe
        have hyt : y.token = tok := by
          rw [← hft]
          exact hfe
        have hyr : y = r := token_unique s hnd y r hy hrmem (by rw [hyt, hrtok])
        rw [hyr, hexp] at hyE
        simp at hyE
      rw [hnone] at hr'
      exact Option.noConfusion hr'

/-- Witness for C3: viewing an already Expired record leaves it
Expired. -/
theorem C3_status_monotone_witness :
    (setExpired staleHeadRecord).status = "expired" :=
  C3_status_monotone (Op.opView false "" 0 "t") [setExpired staleHeadRecord]
    (fun _ => none) "t" (setExpired staleHeadRecord) (setExpired staleHeadRecord)
    (by unfold tokensNodup; decide) (by decide) (by decide) (by decide)

/-- C1: evaluation of the handler at the failing input.  With
maxViews = 1 and two concurrent view calls interleaved read, read,
update, update, both calls pass the gate on the stale copy and serve
the file, and currentViews settles at 2 — not the claimed
min(2, 1) = 1 successes and final count — because the handler's
UpdateOne is filtered only by token and its expire decision is taken
from the earlier FindOne (a read-then-write pair), not as a single
conditional update. -/
theorem C1_concurrent_overcount :
    raceRecord.maxViews = some 1 ∧
    countSuccess (runSched 0 [0, 1, 0, 1] (raceRecord, [Phase.ready, Phase.ready])).2 = 2 ∧
    ((runSched 0 [0, 1, 0, 1] (raceRecord, [Phase.ready, Phase.ready])).1).currentViews = 2 ∧
    ((runSched 0 [0, 1, 0, 1] (raceRecord, [Phase.ready, Phase.ready])).1).status =
      "expired" := by
  decide
